import Mathlib

/-!
Shallow embedding of `src/or/conscache.c` (a reference-counted, disk-backed
consensus cache).  Machine integers (`int32_t refcnt`, `time_t`) are modelled
as `Int`; the `time_t` "infinite" sentinel `TIME_MAX` is modelled explicitly.
The storage backend (`storagedir.c`) and the config-line helpers (`config.c`)
are external collaborators not present in the sources; they are modelled from
the spec at their interface boundary, as marked on each such definition.
-/

namespace Conscache

/-- `TIME_MAX`: the largest `time_t` value, used by the code as the
"infinite" sentinel for `unused_since` (64-bit `time_t`). -/
def TIME_MAX : Int := 9223372036854775807

/-- One `config_line_t` cell: a key/value label pair. -/
structure config_line_t where
  key : String
  value : String
deriving DecidableEq, Repr

/-- A `consensus_cache_entry_t`: a reference-counted handle to one item in a
`consensus_cache_t`.  The C struct's `magic` field is modelled as the Bool
`magicOk` (whether `magic == CCE_MAGIC`); `in_cache` (a pointer to the owning
cache, or NULL) is modelled as a Bool recording presence of the back-reference
(the embedding has a single cache in scope); `map`/`body`/`bodylen` collapse
to an `Option` of the mapped body bytes, with `body`/`bodylen` derived from
it. -/
structure consensus_cache_entry_t where
  magicOk : Bool
  refcnt : Int
  can_remove : Bool
  release_aggressively : Bool
  fname : String
  labels : List config_line_t
  in_cache : Bool
  unused_since : Int
  map : Option (List Nat)
deriving DecidableEq, Repr

/-- A `storage_dir_t`: the backend directory, one file per entry, each file
holding labels and a body.  Modelled from the spec: the backend persists
labeled blobs under unique filenames, lists them, maps them, removes them. -/
structure storage_dir_t where
  files : List (String × List config_line_t × List Nat)
deriving DecidableEq, Repr

/-- A `consensus_cache_t`: the backend handle plus the smartlist of entries
(`none` models a NULL `entries` pointer, as after `consensus_cache_clear`). -/
structure consensus_cache_t where
  dir : storage_dir_t
  entries : Option (List consensus_cache_entry_t)
deriving DecidableEq, Repr

/-- Modelled from the spec: backend `save_labeled` persists `data` with
`labels` under a fresh unique filename.  The fresh name chosen by the backend
is supplied as `fname` by the model's caller (`storagedir.c` is not in the
sources). -/
def storage_dir_save_labeled_to_file (d : storage_dir_t)
    (labels : List config_line_t) (data : List Nat) (fname : String) :
    storage_dir_t :=
  ⟨d.files ++ [(fname, labels, data)]⟩

/-- Modelled from the spec: backend `map_labeled` maps a file's labels and
body into memory, failing (`none`) when the file is unavailable. -/
def storage_dir_map_labeled (d : storage_dir_t) (fname : String) :
    Option (List config_line_t × List Nat) :=
  (d.files.find? (fun f => f.1 = fname)).map (fun f => f.2)

/-- Modelled from the spec: backend `remove_file` deletes the named file. -/
def storage_dir_remove_file (d : storage_dir_t) (fname : String) :
    storage_dir_t :=
  ⟨d.files.filter (fun f => ¬ f.1 = fname)⟩

/-- Modelled from the spec: backend file listing, as used by the rescan. -/
def storage_dir_list (d : storage_dir_t) : List String :=
  d.files.map (fun f => f.1)

/-- Whether the backend currently holds a file named `fname`. -/
def storage_dir_contains (d : storage_dir_t) (fname : String) : Bool :=
  d.files.any (fun f => f.1 = fname)

/-- Modelled from the spec: `config_line_find` (from `config.c`, not in the
sources) returns the first label line whose key equals `key`. -/
def config_line_find (labels : List config_line_t) (key : String) :
    Option config_line_t :=
  labels.find? (fun l => l.key = key)

/-- `consensus_cache_entry_get_value`: if `ent` has a label with the given
`key`, return its value, else `none`. -/
def consensus_cache_entry_get_value (ent : consensus_cache_entry_t)
    (key : String) : Option String :=
  (config_line_find ent.labels key).map (fun l => l.value)

/-- `consensus_cache_entry_get_labels`: the entry's label list. -/
def consensus_cache_entry_get_labels (ent : consensus_cache_entry_t) :
    List config_line_t :=
  ent.labels

/-- `consensus_cache_entry_incref`: no-op on a bad magic (BUG), else
increment `refcnt` and reset `unused_since` to `TIME_MAX`. -/
def consensus_cache_entry_incref (ent : consensus_cache_entry_t) :
    consensus_cache_entry_t :=
  if ent.magicOk = false then ent
  else { ent with refcnt := ent.refcnt + 1, unused_since := TIME_MAX }

/-- `consensus_cache_entry_unmap`: drop the mapping (body and length become
invalid with it) and reset `unused_since` to `TIME_MAX`. -/
def consensus_cache_entry_unmap (ent : consensus_cache_entry_t) :
    consensus_cache_entry_t :=
  { ent with unused_since := TIME_MAX, map := none }

/-- `consensus_cache_entry_decref` with the current time `now` passed in for
`approx_time()`.  Returns `none` when the reference count reaches zero and
the entry is physically destroyed (unmapped, storage released, weak handles
invalidated, memory wiped and freed); the C NULL-argument no-op is the
caller's side.  BUG cases (`refcnt <= 0`, bad magic) are reported no-ops. -/
def consensus_cache_entry_decref (ent : consensus_cache_entry_t) (now : Int) :
    Option consensus_cache_entry_t :=
  if ent.refcnt ≤ 0 then some ent
  else if ent.magicOk = false then some ent
  else
    let e := { ent with refcnt := ent.refcnt - 1 }
    if e.refcnt = 1 ∧ e.in_cache = true then
      if e.map.isSome then
        if e.release_aggressively then some (consensus_cache_entry_unmap e)
        else some { e with unused_since := now }
      else some e
    else if 0 < e.refcnt then some e
    else none

/-- `consensus_cache_entry_mark_for_removal`: set `can_remove`. -/
def consensus_cache_entry_mark_for_removal (ent : consensus_cache_entry_t) :
    consensus_cache_entry_t :=
  { ent with can_remove := true }

/-- `consensus_cache_entry_mark_for_aggressive_release`: set
`release_aggressively`. -/
def consensus_cache_entry_mark_for_aggressive_release
    (ent : consensus_cache_entry_t) : consensus_cache_entry_t :=
  { ent with release_aggressively := true }

/-- `consensus_cache_entry_map`: make sure `ent` is mapped into RAM.  If
already mapped, do nothing; else ask the backend to map the file (labels are
not re-read), storing the possibly-failed result, and reset `unused_since` to
`TIME_MAX`. -/
def consensus_cache_entry_map (dir : storage_dir_t)
    (ent : consensus_cache_entry_t) : consensus_cache_entry_t :=
  if ent.map.isSome then ent
  else { ent with
          map := (storage_dir_map_labeled dir ent.fname).map (fun r => r.2),
          unused_since := TIME_MAX }

/-- `consensus_cache_entry_get_body`: bad magic is a BUG failure; if mapped,
return the cached body view; if unmapped and detached, fail; else map via the
owning cache's backend (`dir` stands for `ent->in_cache->dir`) and return the
body on success, failing when the backend mapping failed.  Returns the
(possibly remapped) entry together with `some (body, bodylen)` on success or
`none` for the C return value `-1`. -/
def consensus_cache_entry_get_body (dir : storage_dir_t)
    (ent : consensus_cache_entry_t) :
    consensus_cache_entry_t × Option (List Nat × Nat) :=
  if ent.magicOk = false then (ent, none)
  else
    match ent.map with
    | some b => (ent, some (b, b.length))
    | none =>
        if ent.in_cache = false then (ent, none)
        else
          let e := consensus_cache_entry_map dir ent
          match e.map with
          | none => (e, none)
          | some b => (e, some (b, b.length))

/-- `consensus_cache_add`: write `data` with `labels` through to the backend;
`saveResult` is the backend's outcome (`none` for a failed
`storage_dir_save_labeled_to_file`, `some fname` for success with fresh name
`fname`).  On failure return the cache unchanged and no entry; on success
append a fresh entry (magic set, deep-copied labels, owning back-reference,
`unused_since = TIME_MAX`, `refcnt = 2`: one reference for the caller, one
for the cache) and return it. -/
def consensus_cache_add (cache : consensus_cache_t)
    (labels : List config_line_t) (data : List Nat)
    (saveResult : Option String) :
    consensus_cache_t × Option consensus_cache_entry_t :=
  match saveResult with
  | none => (cache, none)
  | some fname =>
      let ent : consensus_cache_entry_t :=
        ⟨true, 2, false, false, fname, labels, true, TIME_MAX, none⟩
      (⟨storage_dir_save_labeled_to_file cache.dir labels data fname,
        some (cache.entries.getD [] ++ [ent])⟩,
       some ent)

/-- The loop body of `consensus_cache_find_all`: skip entries marked for
removal; add every entry when `key` is NULL; else add entries whose label
value for `key` is present and equal to `value`. -/
def find_all_step (key : Option String) (value : String)
    (acc : List consensus_cache_entry_t) (ent : consensus_cache_entry_t) :
    List consensus_cache_entry_t :=
  if ent.can_remove = true then acc
  else
    match key with
    | none => acc ++ [ent]
    | some k =>
        match consensus_cache_entry_get_value ent k with
        | some v => if v = value then acc ++ [ent] else acc
        | none => acc

/-- `consensus_cache_find_all`: append to `out` every entry of `cache` with
`key = value` (every entry when `key` is NULL), never adding an entry marked
for removal.  Reference counts are untouched. -/
def consensus_cache_find_all (out : List consensus_cache_entry_t)
    (cache : consensus_cache_t) (key : Option String) (value : String) :
    List consensus_cache_entry_t :=
  cache.entries.getD [] |>.foldl (find_all_step key value) out

/-- The predicate `consensus_cache_find_all` selects by: live (not marked
for removal) and, when a key is given, carrying that key with the given
value. -/
def find_all_pred (key : Option String) (value : String)
    (ent : consensus_cache_entry_t) : Bool :=
  !ent.can_remove
    && (match key with
        | none => true
        | some k =>
            decide (consensus_cache_entry_get_value ent k = some value))

/-- `consensus_cache_find_first`: first entry with `key = value`, via
`consensus_cache_find_all` into a fresh list. -/
def consensus_cache_find_first (cache : consensus_cache_t)
    (key : String) (value : String) : Option consensus_cache_entry_t :=
  (consensus_cache_find_all [] cache (some key) value).head?

/-- `consensus_cache_filter_list`: remove from `lst` every entry that does
not have `key = value` in its labels; no-op when `key` is NULL (the NULL-list
BUG no-op is the caller's side).  Removal during iteration
(`SMARTLIST_DEL_CURRENT`, from `container.c`, not in the sources) is modelled
from the spec as retain-style filtering. -/
def consensus_cache_filter_list (lst : List consensus_cache_entry_t)
    (key : Option String) (value : String) : List consensus_cache_entry_t :=
  match key with
  | none => lst
  | some k =>
      lst.filter (fun ent =>
        match consensus_cache_entry_get_value ent k with
        | none => false
        | some v => v = value)

/-- The loop body of `consensus_cache_unmap_lazy` on one entry: skip when
someone else is using it (`refcnt > 1`) or the owning-cache back-reference
is missing (BUG, skip), skip when unused only since after `cutoff`, skip
when not mapped; otherwise unmap. -/
def unmap_lazy_entry (cutoff : Int) (ent : consensus_cache_entry_t) :
    consensus_cache_entry_t :=
  if 1 < ent.refcnt ∨ ent.in_cache = false then ent
  else if cutoff < ent.unused_since then ent
  else if ent.map.isNone then ent
  else consensus_cache_entry_unmap ent

/-- `consensus_cache_unmap_lazy`: unmap every mapped entry of the cache that
has been unused since `cutoff`. -/
def consensus_cache_unmap_lazy (cache : consensus_cache_t) (cutoff : Int) :
    consensus_cache_t :=
  ⟨cache.dir, cache.entries.map (List.map (unmap_lazy_entry cutoff))⟩

/-- The condition under which `consensus_cache_delete_pending` deletes an
entry: proceed past the not-in-use check (`force`, or `refcnt <= 1` with the
owning back-reference present — a missing back-reference is a BUG skip), the
entry is marked for removal, and `refcnt > 0` (a non-positive refcount is a
BUG skip). -/
def delete_pending_removes (force : Bool) (ent : consensus_cache_entry_t) :
    Bool :=
  (force || (decide (ent.refcnt ≤ 1) && ent.in_cache))
    && ent.can_remove && decide (0 < ent.refcnt)

/-- `consensus_cache_delete_pending`: delete every entry marked with
`consensus_cache_entry_mark_for_removal`; unless `force`, retain entries in
use outside the cache.  Each deleted entry is removed from the collection,
detached, decref'd (its own teardown does not touch the cache), and its
backend file removed by its saved filename.  Removal during iteration is
modelled as retain-style filtering (see `consensus_cache_filter_list`). -/
def consensus_cache_delete_pending (cache : consensus_cache_t)
    (force : Bool) : consensus_cache_t :=
  let l := cache.entries.getD []
  ⟨(l.filter (fun e => delete_pending_removes force e)).foldl
      (fun d e => storage_dir_remove_file d e.fname) cache.dir,
   some (l.filter (fun e => ¬ delete_pending_removes force e = true))⟩

/-- `consensus_cache_clear`: run a non-forced deletion sweep, then detach
(`in_cache := NULL`) and decref every remaining entry (a detached decref
never touches the cache or the backend), free the smartlist and set
`entries` to NULL. -/
def consensus_cache_clear (cache : consensus_cache_t) : consensus_cache_t :=
  let c1 := consensus_cache_delete_pending cache false
  ⟨c1.dir, none⟩

/-- `consensus_cache_free`: drop all storage held by `cache` (clearing the
entry collection first when it is non-NULL, then releasing the backend
handle).  The result is the backend directory as it remains on disk. -/
def consensus_cache_free (cache : consensus_cache_t) : storage_dir_t :=
  if cache.entries.isSome then (consensus_cache_clear cache).dir
  else cache.dir

/-- The entry the rescan builds for one backend file: magic set, filename
and labels from the file, `refcnt = 1` (cache-only reference), attached,
`unused_since = TIME_MAX`, and the temporary mapping already released. -/
def rescan_entry (f : String × List config_line_t × List Nat) :
    consensus_cache_entry_t :=
  ⟨true, 1, false, false, f.1, f.2.1, true, TIME_MAX, none⟩

/-- `consensus_cache_rescan`: clear any existing collection, then rebuild
the entry list from every file the backend lists.  In the model every listed
file maps successfully (the map-failure skip cannot arise), so each file
yields one `rescan_entry`. -/
def consensus_cache_rescan (cache : consensus_cache_t) : consensus_cache_t :=
  let c1 := if cache.entries.isSome then consensus_cache_clear cache
            else cache
  ⟨c1.dir, some (c1.dir.files.map rescan_entry)⟩

/-- One operation of the cache's public lifecycle, acting on a cache state:
entry-level operations (`incref`, `decref`, `get_body`) are addressed by the
entry's position in the collection. -/
inductive cache_op where
  | op_add (labels : List config_line_t) (data : List Nat)
      (saveResult : Option String)
  | op_rescan
  | op_incref (i : Nat)
  | op_decref (i : Nat) (now : Int)
  | op_get_body (i : Nat)
  | op_unmap_lazy (cutoff : Int)
  | op_delete_pending (force : Bool)

/-- Replace the `i`-th entry of the collection. -/
def set_entry (c : consensus_cache_t) (i : Nat)
    (e : consensus_cache_entry_t) : consensus_cache_t :=
  ⟨c.dir, c.entries.map (fun l => l.set i e)⟩

/-- Apply one lifecycle operation to a cache state.  For `op_decref`, when
the entry's reference count reaches zero the entry is destroyed; the model
drops the slot from the collection (the C code would leave a dangling
pointer there — an in-collection entry is only decref'd to zero by a caller
releasing a reference it does not hold). -/
def cache_apply (c : consensus_cache_t) : cache_op → consensus_cache_t
  | .op_add labels data saveResult =>
      (consensus_cache_add c labels data saveResult).1
  | .op_rescan => consensus_cache_rescan c
  | .op_incref i =>
      match (c.entries.getD [])[i]? with
      | none => c
      | some e => set_entry c i (consensus_cache_entry_incref e)
  | .op_decref i now =>
      match (c.entries.getD [])[i]? with
      | none => c
      | some e =>
          match consensus_cache_entry_decref e now with
          | some e2 => set_entry c i e2
          | none => ⟨c.dir, c.entries.map (fun l => l.eraseIdx i)⟩
  | .op_get_body i =>
      match (c.entries.getD [])[i]? with
      | none => c
      | some e => set_entry c i (consensus_cache_entry_get_body c.dir e).1
  | .op_unmap_lazy cutoff => consensus_cache_unmap_lazy c cutoff
  | .op_delete_pending force => consensus_cache_delete_pending c force

/-- The documented per-entry invariant: `unused_since` is finite (not the
`TIME_MAX` sentinel) only when `refcnt == 1`, the owning-cache back-reference
is present, and the mapping is present. -/
def entry_inv (e : consensus_cache_entry_t) : Prop :=
  e.unused_since ≠ TIME_MAX →
    (e.refcnt = 1 ∧ e.in_cache = true ∧ e.map.isSome = true)

instance (e : consensus_cache_entry_t) : Decidable (entry_inv e) := by
  unfold entry_inv; infer_instance

/-- The invariant holds of every entry in the cache's collection. -/
def cache_inv (c : consensus_cache_t) : Prop :=
  ∀ e ∈ c.entries.getD [], entry_inv e

instance (c : consensus_cache_t) : Decidable (cache_inv c) := by
  unfold cache_inv; infer_instance

theorem entry_inv_of_unused_TIME_MAX (e : consensus_cache_entry_t)
    (h : e.unused_since = TIME_MAX) : entry_inv e := by
  intro hne; exact absurd h hne

theorem entry_inv_unmap (e : consensus_cache_entry_t) :
    entry_inv (consensus_cache_entry_unmap e) :=
  entry_inv_of_unused_TIME_MAX _ rfl

theorem entry_inv_incref (e : consensus_cache_entry_t) (h : entry_inv e) :
    entry_inv (consensus_cache_entry_incref e) := by
  unfold consensus_cache_entry_incref
  split
  · exact h
  · exact entry_inv_of_unused_TIME_MAX _ rfl

theorem entry_inv_map (dir : storage_dir_t) (e : consensus_cache_entry_t)
    (h : entry_inv e) : entry_inv (consensus_cache_entry_map dir e) := by
  unfold consensus_cache_entry_map
  split
  · exact h
  · exact entry_inv_of_unused_TIME_MAX _ rfl

theorem entry_inv_decref (e : consensus_cache_entry_t) (now : Int)
    (h : entry_inv e) (e2 : consensus_cache_entry_t)
    (hd : consensus_cache_entry_decref e now = some e2) : entry_inv e2 := by
  unfold consensus_cache_entry_decref at hd
  split at hd
  · exact (Option.some.inj hd) ▸ h
  split at hd
  · exact (Option.some.inj hd) ▸ h
  dsimp only at hd
  split at hd
  · rename_i hcase
    split at hd
    · split at hd
      · exact (Option.some.inj hd) ▸ entry_inv_unmap _
      · refine (Option.some.inj hd) ▸ ?_
        intro _
        exact ⟨hcase.1, hcase.2, by simpa using ‹_›⟩
    · rename_i hmap
      refine (Option.some.inj hd) ▸ ?_
      intro hne
      exact absurd (h hne).2.2 (by simpa using hmap)
  · split at hd
    · rename_i hnot hpos
      refine (Option.some.inj hd) ▸ ?_
      intro hne
      have h3 := h hne
      simp only [h3.1, h3.2.1] at hnot hpos
      omega
    · exact absurd hd (by simp)

theorem entry_inv_get_body (dir : storage_dir_t)
    (e : consensus_cache_entry_t) (h : entry_inv e) :
    entry_inv (consensus_cache_entry_get_body dir e).1 := by
  unfold consensus_cache_entry_get_body
  split
  · exact h
  split
  · exact h
  split
  · exact h
  · dsimp only
    split
    · exact entry_inv_map dir e h
    · exact entry_inv_map dir e h

theorem cache_inv_add (c : consensus_cache_t) (labels : List config_line_t)
    (data : List Nat) (s : Option String) (h : cache_inv c) :
    cache_inv (consensus_cache_add c labels data s).1 := by
  cases s with
  | none => exact h
  | some fname =>
      intro e he
      simp only [consensus_cache_add, Option.getD_some] at he
      rcases List.mem_append.1 he with h1 | h1
      · exact h e h1
      · rw [List.mem_singleton.1 h1]
        exact entry_inv_of_unused_TIME_MAX _ rfl

theorem cache_inv_rescan (c : consensus_cache_t) :
    cache_inv (consensus_cache_rescan c) := by
  intro e he
  simp only [consensus_cache_rescan, Option.getD_some] at he
  rcases List.mem_map.1 he with ⟨f, _, rfl⟩
  exact entry_inv_of_unused_TIME_MAX _ rfl

theorem cache_inv_delete_pending (c : consensus_cache_t) (force : Bool)
    (h : cache_inv c) : cache_inv (consensus_cache_delete_pending c force) := by
  intro e he
  simp only [consensus_cache_delete_pending, Option.getD_some] at he
  exact h e (List.mem_of_mem_filter he)

theorem cache_inv_unmap_lazy (c : consensus_cache_t) (cutoff : Int)
    (h : cache_inv c) : cache_inv (consensus_cache_unmap_lazy c cutoff) := by
  intro e he
  simp only [consensus_cache_unmap_lazy] at he
  cases hc : c.entries with
  | none => rw [hc] at he; simp at he
  | some l =>
      rw [hc] at he
      simp only [Option.map_some', Option.getD_some] at he
      rcases List.mem_map.1 he with ⟨x, hx, rfl⟩
      have hx2 : entry_inv x := h x (by rw [hc]; exact hx)
      unfold unmap_lazy_entry
      split
      · exact hx2
      split
      · exact hx2
      split
      · exact hx2
      · exact entry_inv_unmap _

theorem cache_inv_set_entry (c : consensus_cache_t) (i : Nat)
    (e : consensus_cache_entry_t) (h : cache_inv c) (he : entry_inv e) :
    cache_inv (set_entry c i e) := by
  intro x hx
  simp only [set_entry] at hx
  cases hc : c.entries with
  | none => rw [hc] at hx; simp at hx
  | some l =>
      rw [hc] at hx
      simp only [Option.map_some', Option.getD_some] at hx
      rcases List.mem_or_eq_of_mem_set hx with h1 | h1
      · exact h x (by rw [hc]; exact h1)
      · exact h1 ▸ he

theorem cache_inv_apply (c : consensus_cache_t) (op : cache_op)
    (h : cache_inv c) : cache_inv (cache_apply c op) := by
  cases op with
  | op_add labels data saveResult => exact cache_inv_add c labels data _ h
  | op_rescan => exact cache_inv_rescan c
  | op_incref i =>
      simp only [cache_apply]
      cases hg : (c.entries.getD [])[i]? with
      | none => exact h
      | some e =>
          exact cache_inv_set_entry c i _ h
            (entry_inv_incref e (h e (List.getElem?_mem hg)))
  | op_decref i now =>
      simp only [cache_apply]
      cases hg : (c.entries.getD [])[i]? with
      | none => exact h
      | some e =>
          show cache_inv (match consensus_cache_entry_decref e now with
            | some e2 => set_entry c i e2
            | none => ⟨c.dir, c.entries.map (fun l => l.eraseIdx i)⟩)
          split
          · rename_i e2 hd
            exact cache_inv_set_entry c i _ h
              (entry_inv_decref e now (h e (List.getElem?_mem hg)) e2 hd)
          · intro x hx
            dsimp only at hx
            cases hc : c.entries with
            | none => rw [hc] at hx; simp at hx
            | some l =>
                rw [hc] at hx
                simp only [Option.map_some', Option.getD_some] at hx
                exact h x (by
                  rw [hc]
                  exact (List.eraseIdx_sublist l i).mem hx)
  | op_get_body i =>
      simp only [cache_apply]
      cases hg : (c.entries.getD [])[i]? with
      | none => exact h
      | some e =>
          exact cache_inv_set_entry c i _ h
            (entry_inv_get_body c.dir e (h e (List.getElem?_mem hg)))
  | op_unmap_lazy cutoff => exact cache_inv_unmap_lazy c cutoff h
  | op_delete_pending force => exact cache_inv_delete_pending c force h

/-- C5: the invariant that an entry's `unused_since` is finite (not the
`TIME_MAX` sentinel) only when its refcount is exactly 1, its owning-cache
back-reference is present, and its mapping is present, holds after every
operation (`add`, `rescan`, `incref`, `decref`, `get_body`, `unmap_lazy`,
`delete_pending`) on a cache state satisfying it; for entries handled
outside the collection, `incref`, `decref` and `get_body` preserve it as
well. -/
theorem C5_unused_since_invariant :
    (∀ (c : consensus_cache_t) (op : cache_op),
        cache_inv c → cache_inv (cache_apply c op))
    ∧ (∀ e, entry_inv e → entry_inv (consensus_cache_entry_incref e))
    ∧ (∀ e now e2, entry_inv e →
        consensus_cache_entry_decref e now = some e2 → entry_inv e2)
    ∧ (∀ dir e, entry_inv e →
        entry_inv (consensus_cache_entry_get_body dir e).1) :=
  ⟨cache_inv_apply, entry_inv_incref,
   fun e now e2 h hd => entry_inv_decref e now h e2 hd,
   entry_inv_get_body⟩

/-- Witness for C5 at concrete states: a decref that starts the idle clock,
an incref, a decref landing on refcount 1, and a body access that maps. -/
theorem C5_witness :
    cache_inv (cache_apply
      ⟨⟨[("f1", [⟨"k", "v"⟩], [7])]⟩,
       some [⟨true, 2, false, false, "f1", [⟨"k", "v"⟩], true, TIME_MAX,
             some [7]⟩]⟩
      (cache_op.op_decref 0 10))
    ∧ entry_inv (consensus_cache_entry_incref
        ⟨true, 1, false, false, "f1", [], true, 10, some [7]⟩)
    ∧ entry_inv ⟨true, 1, false, false, "f1", [], true, 10, some [7]⟩
    ∧ entry_inv (consensus_cache_entry_get_body ⟨[("f1", [], [7])]⟩
        ⟨true, 2, false, false, "f1", [], true, TIME_MAX, none⟩).1 :=
  ⟨C5_unused_since_invariant.1 _ _ (by decide),
   C5_unused_since_invariant.2.1 _ (by decide),
   C5_unused_since_invariant.2.2.1
     ⟨true, 2, false, false, "f1", [], true, TIME_MAX, some [7]⟩ 10 _
     (by decide) (by decide),
   C5_unused_since_invariant.2.2.2 _ _ (by decide)⟩

/-- C10: `mark_for_removal` changes only the `can_remove` flag and
`mark_for_aggressive_release` changes only the `release_aggressively` flag;
every other field of the entry (magic, refcount, mapping/body, filename,
labels, owning-cache back-reference, `unused_since`, and the respective
other flag) is unchanged, and both operations are idempotent. -/
theorem C10_mark_frame_conditions :
    ∀ e : consensus_cache_entry_t,
      (consensus_cache_entry_mark_for_removal e).can_remove = true
      ∧ (consensus_cache_entry_mark_for_removal e).magicOk = e.magicOk
      ∧ (consensus_cache_entry_mark_for_removal e).refcnt = e.refcnt
      ∧ (consensus_cache_entry_mark_for_removal e).release_aggressively
          = e.release_aggressively
      ∧ (consensus_cache_entry_mark_for_removal e).fname = e.fname
      ∧ (consensus_cache_entry_mark_for_removal e).labels = e.labels
      ∧ (consensus_cache_entry_mark_for_removal e).in_cache = e.in_cache
      ∧ (consensus_cache_entry_mark_for_removal e).unused_since
          = e.unused_since
      ∧ (consensus_cache_entry_mark_for_removal e).map = e.map
      ∧ consensus_cache_entry_mark_for_removal
          (consensus_cache_entry_mark_for_removal e)
          = consensus_cache_entry_mark_for_removal e
      ∧ (consensus_cache_entry_mark_for_aggressive_release e).release_aggressively = true
      ∧ (consensus_cache_entry_mark_for_aggressive_release e).magicOk
          = e.magicOk
      ∧ (consensus_cache_entry_mark_for_aggressive_release e).refcnt
          = e.refcnt
      ∧ (consensus_cache_entry_mark_for_aggressive_release e).can_remove
          = e.can_remove
      ∧ (consensus_cache_entry_mark_for_aggressive_release e).fname = e.fname
      ∧ (consensus_cache_entry_mark_for_aggressive_release e).labels
          = e.labels
      ∧ (consensus_cache_entry_mark_for_aggressive_release e).in_cache
          = e.in_cache
      ∧ (consensus_cache_entry_mark_for_aggressive_release e).unused_since
          = e.unused_since
      ∧ (consensus_cache_entry_mark_for_aggressive_release e).map = e.map
      ∧ consensus_cache_entry_mark_for_aggressive_release
          (consensus_cache_entry_mark_for_aggressive_release e)
          = consensus_cache_entry_mark_for_aggressive_release e :=
  fun _ => ⟨rfl, rfl, rfl, rfl, rfl, rfl, rfl, rfl, rfl, rfl, rfl, rfl, rfl,
            rfl, rfl, rfl, rfl, rfl, rfl, rfl⟩

/-- C9: with a non-absent key, `consensus_cache_filter_list` returns exactly
the subsequence of the input consisting of the entries whose label value for
the key equals the given value: it is a sublist of the input (relative order
preserved), its members are exactly the matching input entries, and it
equals the retained-entry filtering of the input (so no entry's own state is
modified). -/
theorem C9_filter_list_order_preserving :
    ∀ (lst : List consensus_cache_entry_t) (k v : String),
      List.Sublist (consensus_cache_filter_list lst (some k) v) lst
      ∧ (∀ e, e ∈ consensus_cache_filter_list lst (some k) v ↔
          (e ∈ lst ∧ consensus_cache_entry_get_value e k = some v))
      ∧ consensus_cache_filter_list lst (some k) v
          = lst.filter
              (fun e => decide (consensus_cache_entry_get_value e k
                = some v)) := by
  intro lst k v
  have hfun : ∀ e : consensus_cache_entry_t,
      (match consensus_cache_entry_get_value e k with
        | none => false
        | some v2 => decide (v2 = v))
        = decide (consensus_cache_entry_get_value e k = some v) := by
    intro e
    cases hv : consensus_cache_entry_get_value e k with
    | none => simp
    | some v2 => simp
  refine ⟨?_, ?_, ?_⟩
  · exact List.filter_sublist lst
  · intro e
    simp only [consensus_cache_filter_list, List.mem_filter, hfun,
      decide_eq_true_eq]
  · simp only [consensus_cache_filter_list]
    exact List.filter_congr (fun e _ => hfun e)

theorem find_all_step_eq (key : Option String) (value : String)
    (acc : List consensus_cache_entry_t) (ent : consensus_cache_entry_t) :
    find_all_step key value acc ent
      = acc ++ (if find_all_pred key value ent = true then [ent] else []) := by
  unfold find_all_step find_all_pred
  cases hcr : ent.can_remove with
  | true => simp
  | false =>
      cases key with
      | none => simp
      | some k =>
          cases hv : consensus_cache_entry_get_value ent k with
          | none => simp [hv]
          | some v2 =>
              by_cases hvv : v2 = value
              · simp [hv, hvv]
              · simp [hv, hvv]

theorem find_all_foldl (key : Option String) (value : String) :
    ∀ (l out : List consensus_cache_entry_t),
      l.foldl (find_all_step key value) out
        = out ++ l.filter (find_all_pred key value) := by
  intro l
  induction l with
  | nil => intro out; simp
  | cons x t ih =>
      intro out
      rw [List.foldl_cons, ih, find_all_step_eq]
      by_cases hp : find_all_pred key value x = true
      · simp [hp]
      · simp [hp, Bool.eq_false_iff.2 hp]

theorem find_all_eq_filter (c : consensus_cache_t)
    (l : List consensus_cache_entry_t) (key : Option String) (v : String)
    (hc : c.entries = some l) :
    consensus_cache_find_all [] c key v = l.filter (find_all_pred key v) := by
  unfold consensus_cache_find_all
  rw [hc]
  simp only [Option.getD_some]
  rw [find_all_foldl]
  simp

/-- C7: `find_all` with a non-absent key returns exactly the entries of the
collection that are not marked for removal and whose label value for the key
equals the given value; with an absent (NULL) key it returns exactly every
entry not marked for removal; every returned entry is an element of the
collection itself (its state, including its reference count, untouched). -/
theorem C7_find_all_exact :
    ∀ (c : consensus_cache_t) (l : List consensus_cache_entry_t) (v : String),
      c.entries = some l →
      (∀ k e, e ∈ consensus_cache_find_all [] c (some k) v ↔
          (e ∈ l ∧ e.can_remove = false
            ∧ consensus_cache_entry_get_value e k = some v))
      ∧ (∀ e, e ∈ consensus_cache_find_all [] c none v ↔
          (e ∈ l ∧ e.can_remove = false))
      ∧ (∀ key e, e ∈ consensus_cache_find_all [] c key v → e ∈ l) := by
  intro c l v hc
  refine ⟨?_, ?_, ?_⟩
  · intro k e
    rw [find_all_eq_filter c l (some k) v hc]
    simp only [List.mem_filter, find_all_pred, Bool.and_eq_true,
      Bool.not_eq_true', decide_eq_true_eq]
  · intro e
    rw [find_all_eq_filter c l none v hc]
    simp only [List.mem_filter, find_all_pred, Bool.and_eq_true,
      Bool.not_eq_true']
    tauto
  · intro key e he
    rw [find_all_eq_filter c l key v hc] at he
    exact List.mem_of_mem_filter he

/-- Witness for C7: in a two-entry collection where the second entry is
marked for removal, `find_all` returns exactly the unmarked matching
entry. -/
theorem C7_witness :
    (⟨true, 1, false, false, "f1", [⟨"k", "v"⟩], true, TIME_MAX, none⟩
        ∈ consensus_cache_find_all []
            ⟨⟨[]⟩, some [⟨true, 1, false, false, "f1", [⟨"k", "v"⟩], true,
                          TIME_MAX, none⟩,
                         ⟨true, 1, true, false, "f2", [⟨"k", "v"⟩], true,
                          TIME_MAX, none⟩]⟩
            (some "k") "v"
      ↔ (⟨true, 1, false, false, "f1", [⟨"k", "v"⟩], true, TIME_MAX, none⟩
            ∈ ([⟨true, 1, false, false, "f1", [⟨"k", "v"⟩], true, TIME_MAX,
                 none⟩,
                ⟨true, 1, true, false, "f2", [⟨"k", "v"⟩], true, TIME_MAX,
                 none⟩] : List consensus_cache_entry_t)
          ∧ (⟨true, 1, false, false, "f1", [⟨"k", "v"⟩], true, TIME_MAX,
              none⟩ : consensus_cache_entry_t).can_remove = false
          ∧ consensus_cache_entry_get_value
              ⟨true, 1, false, false, "f1", [⟨"k", "v"⟩], true, TIME_MAX,
               none⟩ "k" = some "v")) :=
  (C7_find_all_exact
      ⟨⟨[]⟩, some [⟨true, 1, false, false, "f1", [⟨"k", "v"⟩], true,
                    TIME_MAX, none⟩,
                   ⟨true, 1, true, false, "f2", [⟨"k", "v"⟩], true,
                    TIME_MAX, none⟩]⟩
      _ "v" rfl).1 "k" _

theorem config_line_find_of_nodup :
    ∀ (labels : List config_line_t) (kv : config_line_t),
      (labels.map config_line_t.key).Nodup → kv ∈ labels →
      config_line_find labels kv.key = some kv := by
  intro labels
  induction labels with
  | nil => intro kv _ hm; simp at hm
  | cons h t ih =>
      intro kv hnd hm
      simp only [List.map_cons, List.nodup_cons] at hnd
      unfold config_line_find
      by_cases hk : h.key = kv.key
      · rcases List.mem_cons.1 hm with rfl | hmt
        · rw [List.find?_cons_of_pos]
          simp
        · exact absurd (hk ▸ (List.mem_map.2 ⟨kv, hmt, rfl⟩)) hnd.1
      · rcases List.mem_cons.1 hm with rfl | hmt
        · exact absurd rfl hk
        · rw [List.find?_cons_of_neg]
          · exact ih kv hnd.2 hmt
          · simpa using hk

theorem map_labeled_after_save (d : storage_dir_t)
    (labels : List config_line_t) (data : List Nat) (fname : String)
    (hfresh : storage_dir_contains d fname = false) :
    storage_dir_map_labeled
        (storage_dir_save_labeled_to_file d labels data fname) fname
      = some (labels, data) := by
  unfold storage_dir_map_labeled storage_dir_save_labeled_to_file
  rw [List.find?_append]
  have h1 : d.files.find? (fun f => decide (f.1 = fname)) = none := by
    rw [List.find?_eq_none]
    intro x hx
    unfold storage_dir_contains at hfresh
    rw [List.any_eq_false] at hfresh
    simpa using hfresh x hx
  rw [h1]
  simp

/-- C6: when the backend write succeeds (returning a fresh filename), `add`
returns an entry whose refcount is exactly 2, whose `unused_since` is the
`TIME_MAX` sentinel, whose label set equals the given labels, which has been
appended to the cache's collection, which is findable via
`find_all`/`find_first` by every label it was given (labels with distinct
keys, as the API requires), and whose `get_body` returns exactly the bytes
written. -/
theorem C6_add_postconditions :
    ∀ (c : consensus_cache_t) (l : List consensus_cache_entry_t)
      (labels : List config_line_t) (data : List Nat) (fname : String),
      c.entries = some l →
      storage_dir_contains c.dir fname = false →
      (labels.map config_line_t.key).Nodup →
      ∃ ent, (consensus_cache_add c labels data (some fname)).2 = some ent
        ∧ ent.refcnt = 2
        ∧ ent.unused_since = TIME_MAX
        ∧ ent.labels = labels
        ∧ (consensus_cache_add c labels data (some fname)).1.entries
            = some (l ++ [ent])
        ∧ (∀ kv ∈ labels,
            ent ∈ consensus_cache_find_all []
                (consensus_cache_add c labels data (some fname)).1
                (some kv.key) kv.value
            ∧ (consensus_cache_find_first
                (consensus_cache_add c labels data (some fname)).1
                kv.key kv.value).isSome = true)
        ∧ (consensus_cache_entry_get_body
              (consensus_cache_add c labels data (some fname)).1.dir ent).2
            = some (data, data.length) := by
  intro c l labels data fname hc hfresh hnd
  refine ⟨⟨true, 2, false, false, fname, labels, true, TIME_MAX, none⟩,
    rfl, rfl, rfl, rfl, ?_, ?_, ?_⟩
  · simp [consensus_cache_add, hc]
  · intro kv hkv
    have hents : (consensus_cache_add c labels data (some fname)).1.entries
        = some (l ++ [⟨true, 2, false, false, fname, labels, true, TIME_MAX,
                       none⟩]) := by
      simp [consensus_cache_add, hc]
    have hgv : consensus_cache_entry_get_value
        ⟨true, 2, false, false, fname, labels, true, TIME_MAX, none⟩ kv.key
        = some kv.value := by
      unfold consensus_cache_entry_get_value
      rw [show (⟨true, 2, false, false, fname, labels, true, TIME_MAX,
            none⟩ : consensus_cache_entry_t).labels = labels from rfl]
      rw [config_line_find_of_nodup labels kv hnd hkv]
      rfl
    have hmem : (⟨true, 2, false, false, fname, labels, true, TIME_MAX,
        none⟩ : consensus_cache_entry_t)
        ∈ consensus_cache_find_all []
            (consensus_cache_add c labels data (some fname)).1
            (some kv.key) kv.value := by
      rw [find_all_eq_filter _ _ _ _ hents]
      rw [List.mem_filter]
      refine ⟨List.mem_append_right _ (List.mem_singleton.2 rfl), ?_⟩
      simp [find_all_pred, hgv]
    refine ⟨hmem, ?_⟩
    unfold consensus_cache_find_first
    cases hfa : consensus_cache_find_all []
        (consensus_cache_add c labels data (some fname)).1
        (some kv.key) kv.value with
    | nil => rw [hfa] at hmem; simp at hmem
    | cons a t => rfl
  · have hdir : (consensus_cache_add c labels data (some fname)).1.dir
        = storage_dir_save_labeled_to_file c.dir labels data fname := rfl
    rw [hdir]
    unfold consensus_cache_entry_get_body
    simp only [Bool.true_eq_false, if_false]
    unfold consensus_cache_entry_map
    simp [map_labeled_after_save c.dir labels data fname hfresh]

/-- Witness for C6: adding body bytes `[1, 2]` with label `k = v` to an
empty cache over an empty backend. -/
theorem C6_witness :
    ∃ ent, (consensus_cache_add ⟨⟨[]⟩, some []⟩ [⟨"k", "v"⟩] [1, 2]
              (some "f1")).2 = some ent
      ∧ ent.refcnt = 2
      ∧ ent.unused_since = TIME_MAX
      ∧ ent.labels = [⟨"k", "v"⟩]
      ∧ (consensus_cache_add ⟨⟨[]⟩, some []⟩ [⟨"k", "v"⟩] [1, 2]
            (some "f1")).1.entries = some ([] ++ [ent])
      ∧ (∀ kv ∈ [(⟨"k", "v"⟩ : config_line_t)],
          ent ∈ consensus_cache_find_all []
              (consensus_cache_add ⟨⟨[]⟩, some []⟩ [⟨"k", "v"⟩] [1, 2]
                (some "f1")).1 (some kv.key) kv.value
          ∧ (consensus_cache_find_first
              (consensus_cache_add ⟨⟨[]⟩, some []⟩ [⟨"k", "v"⟩] [1, 2]
                (some "f1")).1 kv.key kv.value).isSome = true)
      ∧ (consensus_cache_entry_get_body
            (consensus_cache_add ⟨⟨[]⟩, some []⟩ [⟨"k", "v"⟩] [1, 2]
              (some "f1")).1.dir ent).2 = some ([1, 2], [1, 2].length) :=
  C6_add_postconditions ⟨⟨[]⟩, some []⟩ [] [⟨"k", "v"⟩] [1, 2] "f1"
    rfl (by decide) (by decide)

/-- C8: for an entry with a valid integrity tag: when already mapped,
`get_body` returns the cached view with the entry unchanged and without
consulting the backend (the result is the same for every backend); when
unmapped and detached it fails with the not-available error (C return `-1`,
modelled `none`) and maps nothing; when unmapped and attached it asks the
backend to map the file: on success it stores the mapping, resets
`unused_since` to `TIME_MAX`, and returns the body and its length; on
backend mapping failure it fails with the not-available error (the entry
keeps no mapping, `unused_since` reset to `TIME_MAX`). -/
theorem C8_get_body_cases :
    ∀ (dir : storage_dir_t) (ent : consensus_cache_entry_t),
      ent.magicOk = true →
      (∀ b, ent.map = some b →
          consensus_cache_entry_get_body dir ent = (ent, some (b, b.length)))
      ∧ (ent.map = none → ent.in_cache = false →
          consensus_cache_entry_get_body dir ent = (ent, none))
      ∧ (ent.map = none → ent.in_cache = true →
          (∀ ls b, storage_dir_map_labeled dir ent.fname = some (ls, b) →
            consensus_cache_entry_get_body dir ent
              = ({ ent with map := some b, unused_since := TIME_MAX },
                 some (b, b.length)))
          ∧ (storage_dir_map_labeled dir ent.fname = none →
            consensus_cache_entry_get_body dir ent
              = ({ ent with map := none, unused_since := TIME_MAX },
                 none))) := by
  intro dir ent hmg
  refine ⟨?_, ?_, ?_⟩
  · intro b hb
    unfold consensus_cache_entry_get_body
    rw [hmg, hb]
    simp
  · intro hm hic
    unfold consensus_cache_entry_get_body
    rw [hmg, hm, hic]
    simp
  · intro hm hic
    constructor
    · intro ls b hmap
      unfold consensus_cache_entry_get_body consensus_cache_entry_map
      rw [hmg, hm, hic, hmap]
      simp [hm]
    · intro hmap
      unfold consensus_cache_entry_get_body consensus_cache_entry_map
      rw [hmg, hm, hic, hmap]
      simp [hm]

/-- Witness for C8: an unmapped, attached entry over a backend holding its
file, and the same entry over an empty backend. -/
theorem C8_witness :
    ((∀ b, (⟨true, 1, false, false, "f1", [], true, TIME_MAX, none⟩
          : consensus_cache_entry_t).map = some b →
        consensus_cache_entry_get_body ⟨[("f1", [], [9])]⟩
            ⟨true, 1, false, false, "f1", [], true, TIME_MAX, none⟩
          = (⟨true, 1, false, false, "f1", [], true, TIME_MAX, none⟩,
             some (b, b.length)))
      ∧ ((⟨true, 1, false, false, "f1", [], true, TIME_MAX, none⟩
            : consensus_cache_entry_t).map = none →
          (⟨true, 1, false, false, "f1", [], true, TIME_MAX, none⟩
            : consensus_cache_entry_t).in_cache = false →
          consensus_cache_entry_get_body ⟨[("f1", [], [9])]⟩
              ⟨true, 1, false, false, "f1", [], true, TIME_MAX, none⟩
            = (⟨true, 1, false, false, "f1", [], true, TIME_MAX, none⟩,
               none))
      ∧ ((⟨true, 1, false, false, "f1", [], true, TIME_MAX, none⟩
            : consensus_cache_entry_t).map = none →
          (⟨true, 1, false, false, "f1", [], true, TIME_MAX, none⟩
            : consensus_cache_entry_t).in_cache = true →
          (∀ ls b, storage_dir_map_labeled ⟨[("f1", [], [9])]⟩
              (⟨true, 1, false, false, "f1", [], true, TIME_MAX, none⟩
                : consensus_cache_entry_t).fname = some (ls, b) →
            consensus_cache_entry_get_body ⟨[("f1", [], [9])]⟩
                ⟨true, 1, false, false, "f1", [], true, TIME_MAX, none⟩
              = ({ (⟨true, 1, false, false, "f1", [], true, TIME_MAX, none⟩
                    : consensus_cache_entry_t) with
                    map := some b, unused_since := TIME_MAX },
                 some (b, b.length)))
          ∧ (storage_dir_map_labeled ⟨[("f1", [], [9])]⟩
              (⟨true, 1, false, false, "f1", [], true, TIME_MAX, none⟩
                : consensus_cache_entry_t).fname = none →
            consensus_cache_entry_get_body ⟨[("f1", [], [9])]⟩
                ⟨true, 1, false, false, "f1", [], true, TIME_MAX, none⟩
              = ({ (⟨true, 1, false, false, "f1", [], true, TIME_MAX, none⟩
                    : consensus_cache_entry_t) with
                    map := none, unused_since := TIME_MAX },
                 none)))) :=
  C8_get_body_cases ⟨[("f1", [], [9])]⟩
    ⟨true, 1, false, false, "f1", [], true, TIME_MAX, none⟩ (by decide)

/-- C3 as stated is false at cutoff = TIME_MAX: the code only compares
`unused_since > cutoff`, so at the degenerate cutoff `TIME_MAX` a mapped,
cache-only entry whose `unused_since` is the infinite sentinel is unmapped,
although the claim says entries with infinite `unused_since` are left
untouched for every cutoff time. -/
theorem C3_counterexample :
    ¬ (∀ (c : consensus_cache_t) (cutoff : Int) (i : Nat)
         (e : consensus_cache_entry_t),
        (c.entries.getD [])[i]? = some e → e.unused_since = TIME_MAX →
        ((consensus_cache_unmap_lazy c cutoff).entries.getD [])[i]?
          = some e) := by
  intro hclaim
  have h := hclaim
    ⟨⟨[]⟩,
     some [⟨true, 1, false, false, "f1", [], true, TIME_MAX, some [1]⟩]⟩
    TIME_MAX 0
    ⟨true, 1, false, false, "f1", [], true, TIME_MAX, some [1]⟩
    (by decide) rfl
  exact absurd h (by decide)

/-- C3 amended: for a collection of live entries (refcnt ≥ 1) and any finite
cutoff (cutoff < TIME_MAX), `unmap_lazy` never removes an entry from the
collection, never unmaps an entry with refcnt > 1 or with the owning-cache
back-reference missing, leaves entries with `unused_since > cutoff` (hence
any with the infinite sentinel) and unmapped entries untouched, and unmaps
exactly the mapped entries with refcnt = 1, back-reference present and
`unused_since <= cutoff`. -/
theorem C3_unmap_lazy_exact :
    ∀ (c : consensus_cache_t) (l : List consensus_cache_entry_t)
      (cutoff : Int),
      c.entries = some l → cutoff < TIME_MAX → (∀ x ∈ l, 1 ≤ x.refcnt) →
      ∃ l2, (consensus_cache_unmap_lazy c cutoff).entries = some l2
        ∧ l2.length = l.length
        ∧ (∀ (i : Nat) (e : consensus_cache_entry_t), l[i]? = some e →
            (1 < e.refcnt → l2[i]? = some e)
            ∧ (e.in_cache = false → l2[i]? = some e)
            ∧ (cutoff < e.unused_since → l2[i]? = some e)
            ∧ (e.map = none → l2[i]? = some e)
            ∧ (e.refcnt = 1 → e.in_cache = true →
                e.unused_since ≤ cutoff → e.map.isSome = true →
                l2[i]? = some (consensus_cache_entry_unmap e))) := by
  intro c l cutoff hc _ _
  refine ⟨l.map (unmap_lazy_entry cutoff), ?_, by simp, ?_⟩
  · simp [consensus_cache_unmap_lazy, hc]
  · intro i e hi
    have hmap : (l.map (unmap_lazy_entry cutoff))[i]?
        = some (unmap_lazy_entry cutoff e) := by
      rw [List.getElem?_map, hi]
      rfl
    refine ⟨?_, ?_, ?_, ?_, ?_⟩
    · intro h1
      rw [hmap]
      unfold unmap_lazy_entry
      rw [if_pos (Or.inl h1)]
    · intro h1
      rw [hmap]
      unfold unmap_lazy_entry
      rw [if_pos (Or.inr h1)]
    · intro h1
      rw [hmap]
      unfold unmap_lazy_entry
      split_ifs
      any_goals rfl
    · intro h1
      rw [hmap]
      unfold unmap_lazy_entry
      split_ifs with g1 g2 g3
      any_goals rfl
      all_goals exact absurd (by simp [h1]) g3
    · intro h1 h2 h3 h4
      rw [hmap]
      unfold unmap_lazy_entry
      split_ifs with g1 g2 g3
      · rcases g1 with g1 | g1
        · omega
        · rw [h2] at g1; exact absurd g1 (by simp)
      · exact absurd h3 (by omega)
      · rw [Option.isNone_iff_eq_none] at g3
        rw [g3] at h4
        simp at h4
      · rfl

/-- Witness for C3: a two-entry collection at cutoff 100 — an idle mapped
entry (unused since 50) is unmapped, a busy one (refcnt 2) is untouched. -/
theorem C3_witness :
    ∃ l2, (consensus_cache_unmap_lazy
        ⟨⟨[]⟩, some [⟨true, 1, false, false, "f1", [], true, 50, some [1]⟩,
                     ⟨true, 2, false, false, "f2", [], true, TIME_MAX,
                      some [2]⟩]⟩ 100).entries = some l2
      ∧ l2.length = ([⟨true, 1, false, false, "f1", [], true, 50, some [1]⟩,
                      ⟨true, 2, false, false, "f2", [], true, TIME_MAX,
                       some [2]⟩]
                     : List consensus_cache_entry_t).length
      ∧ (∀ (i : Nat) (e : consensus_cache_entry_t),
          ([⟨true, 1, false, false, "f1", [], true, 50, some [1]⟩,
                  ⟨true, 2, false, false, "f2", [], true, TIME_MAX,
                   some [2]⟩]
                 : List consensus_cache_entry_t)[i]? = some e →
          (1 < e.refcnt → l2[i]? = some e)
          ∧ (e.in_cache = false → l2[i]? = some e)
          ∧ ((100 : Int) < e.unused_since → l2[i]? = some e)
          ∧ (e.map = none → l2[i]? = some e)
          ∧ (e.refcnt = 1 → e.in_cache = true → e.unused_since ≤ 100 →
              e.map.isSome = true →
              l2[i]? = some (consensus_cache_entry_unmap e))) :=
  C3_unmap_lazy_exact
    ⟨⟨[]⟩, some [⟨true, 1, false, false, "f1", [], true, 50, some [1]⟩,
                 ⟨true, 2, false, false, "f2", [], true, TIME_MAX,
                  some [2]⟩]⟩
    _ 100 rfl (by decide) (by decide)

theorem incref_of_magicOk (e : consensus_cache_entry_t)
    (h : e.magicOk = true) :
    consensus_cache_entry_incref e
      = { e with refcnt := e.refcnt + 1, unused_since := TIME_MAX } := by
  unfold consensus_cache_entry_incref
  rw [h]
  simp

/-- C4 as stated is false: on a live, mapped, cache-only entry marked for
aggressive release, `incref` followed by `decref` unmaps the entry, so the
mapped state is not restored (and the final entry differs from the original
in more than `unused_since`). -/
theorem C4_counterexample :
    ¬ (∀ (e : consensus_cache_entry_t) (now : Int),
        e.magicOk = true → 1 ≤ e.refcnt →
        consensus_cache_entry_decref (consensus_cache_entry_incref e) now
          = some { e with unused_since := TIME_MAX }) := by
  intro hclaim
  have h := hclaim
    ⟨true, 1, false, true, "f1", [], true, TIME_MAX, some [1]⟩ 50
    rfl (by decide)
  exact absurd h (by decide)

/-- C4 amended: for every live entry (valid magic, refcnt ≥ 1), `incref`
then `decref` restores the reference count and every field other than
`unused_since` and the mapping; unless the entry was a mapped, cache-only
entry (refcnt = 1, back-reference present, mapping present) the round trip
changes nothing but `unused_since`, which ends at the infinite sentinel; in
the mapped cache-only case the decref either unmaps the entry (when
`release_aggressively` is set, leaving `unused_since` infinite) or keeps the
mapping and starts the idle clock (`unused_since` becomes the current
time). -/
theorem C4_incref_decref_roundtrip :
    ∀ (e : consensus_cache_entry_t) (now : Int),
      e.magicOk = true → 1 ≤ e.refcnt →
      ∃ e2, consensus_cache_entry_decref (consensus_cache_entry_incref e) now
          = some e2
        ∧ e2.refcnt = e.refcnt
        ∧ e2.magicOk = e.magicOk
        ∧ e2.can_remove = e.can_remove
        ∧ e2.release_aggressively = e.release_aggressively
        ∧ e2.fname = e.fname
        ∧ e2.labels = e.labels
        ∧ e2.in_cache = e.in_cache
        ∧ (¬ (e.refcnt = 1 ∧ e.in_cache = true ∧ e.map.isSome = true) →
            e2 = { e with unused_since := TIME_MAX })
        ∧ (e.refcnt = 1 → e.in_cache = true → e.map.isSome = true →
            (e.release_aggressively = true →
              e2 = { e with unused_since := TIME_MAX, map := none })
            ∧ (e.release_aggressively = false →
              e2 = { e with unused_since := now })) := by
  intro e now hmg hrc
  rcases e with ⟨m, r, cr, ra, fn, lb, ic, us, mp⟩
  dsimp only at hmg hrc
  subst hmg
  rw [incref_of_magicOk _ rfl]
  unfold consensus_cache_entry_decref
  dsimp only
  rw [if_neg (show ¬ r + 1 ≤ 0 from by omega)]
  rw [if_neg (show ¬ true = false from by simp)]
  have harith : r + 1 - 1 = r := by omega
  rw [harith]
  by_cases hcase : r = 1 ∧ ic = true
  · obtain ⟨hr1, hic1⟩ := hcase
    subst hr1
    subst hic1
    rw [if_pos ⟨rfl, rfl⟩]
    cases mp with
    | none =>
        rw [if_neg (by simp)]
        refine ⟨_, rfl, rfl, rfl, rfl, rfl, rfl, rfl, rfl, ?_, ?_⟩
        · intro _
          rfl
        · intro _ _ h3
          exact absurd h3 (by simp)
    | some b =>
        rw [if_pos (by simp)]
        cases ra with
        | true =>
            rw [if_pos rfl]
            refine ⟨_, rfl, rfl, rfl, rfl, rfl, rfl, rfl, rfl, ?_, ?_⟩
            · intro hna
              exact absurd ⟨rfl, rfl, by simp⟩ hna
            · intro _ _ _
              exact ⟨fun _ => rfl, fun hra => by simp at hra⟩
        | false =>
            rw [if_neg (by simp)]
            refine ⟨_, rfl, rfl, rfl, rfl, rfl, rfl, rfl, rfl, ?_, ?_⟩
            · intro hna
              exact absurd ⟨rfl, rfl, by simp⟩ hna
            · intro _ _ _
              exact ⟨fun hra => by simp at hra, fun _ => rfl⟩
  · rw [if_neg hcase]
    rw [if_pos (show (0 : Int) < r from by omega)]
    refine ⟨_, rfl, rfl, rfl, rfl, rfl, rfl, rfl, rfl, ?_, ?_⟩
    · intro _
      rfl
    · intro h1 h2 _
      exact absurd ⟨h1, h2⟩ hcase

/-- Witness for C4 at a doubly referenced mapped entry: the round trip
restores refcount 2 and only resets `unused_since` to the sentinel. -/
theorem C4_witness :
    ∃ e2, consensus_cache_entry_decref
        (consensus_cache_entry_incref
          ⟨true, 2, false, false, "f1", [], true, TIME_MAX, some [3]⟩) 7
        = some e2
      ∧ e2.refcnt = (⟨true, 2, false, false, "f1", [], true, TIME_MAX,
          some [3]⟩ : consensus_cache_entry_t).refcnt
      ∧ e2.magicOk = (⟨true, 2, false, false, "f1", [], true, TIME_MAX,
          some [3]⟩ : consensus_cache_entry_t).magicOk
      ∧ e2.can_remove = (⟨true, 2, false, false, "f1", [], true, TIME_MAX,
          some [3]⟩ : consensus_cache_entry_t).can_remove
      ∧ e2.release_aggressively
          = (⟨true, 2, false, false, "f1", [], true, TIME_MAX,
              some [3]⟩ : consensus_cache_entry_t).release_aggressively
      ∧ e2.fname = (⟨true, 2, false, false, "f1", [], true, TIME_MAX,
          some [3]⟩ : consensus_cache_entry_t).fname
      ∧ e2.labels = (⟨true, 2, false, false, "f1", [], true, TIME_MAX,
          some [3]⟩ : consensus_cache_entry_t).labels
      ∧ e2.in_cache = (⟨true, 2, false, false, "f1", [], true, TIME_MAX,
          some [3]⟩ : consensus_cache_entry_t).in_cache
      ∧ (¬ ((⟨true, 2, false, false, "f1", [], true, TIME_MAX, some [3]⟩
              : consensus_cache_entry_t).refcnt = 1
            ∧ (⟨true, 2, false, false, "f1", [], true, TIME_MAX, some [3]⟩
              : consensus_cache_entry_t).in_cache = true
            ∧ (⟨true, 2, false, false, "f1", [], true, TIME_MAX, some [3]⟩
              : consensus_cache_entry_t).map.isSome = true) →
          e2 = { (⟨true, 2, false, false, "f1", [], true, TIME_MAX, some [3]⟩
              : consensus_cache_entry_t) with unused_since := TIME_MAX })
      ∧ ((⟨true, 2, false, false, "f1", [], true, TIME_MAX, some [3]⟩
            : consensus_cache_entry_t).refcnt = 1 →
          (⟨true, 2, false, false, "f1", [], true, TIME_MAX, some [3]⟩
            : consensus_cache_entry_t).in_cache = true →
          (⟨true, 2, false, false, "f1", [], true, TIME_MAX, some [3]⟩
            : consensus_cache_entry_t).map.isSome = true →
          ((⟨true, 2, false, false, "f1", [], true, TIME_MAX, some [3]⟩
              : consensus_cache_entry_t).release_aggressively = true →
            e2 = { (⟨true, 2, false, false, "f1", [], true, TIME_MAX,
                some [3]⟩ : consensus_cache_entry_t) with
                unused_since := TIME_MAX, map := none })
          ∧ ((⟨true, 2, false, false, "f1", [], true, TIME_MAX, some [3]⟩
              : consensus_cache_entry_t).release_aggressively = false →
            e2 = { (⟨true, 2, false, false, "f1", [], true, TIME_MAX,
                some [3]⟩ : consensus_cache_entry_t) with
                unused_since := 7 })) :=
  C4_incref_decref_roundtrip
    ⟨true, 2, false, false, "f1", [], true, TIME_MAX, some [3]⟩ 7
    rfl (by decide)

theorem contains_remove_self (d : storage_dir_t) (f : String) :
    storage_dir_contains (storage_dir_remove_file d f) f = false := by
  unfold storage_dir_contains storage_dir_remove_file
  rw [List.any_eq_false]
  intro x hx
  have h := (List.mem_filter.1 hx).2
  simpa using h

theorem contains_remove_other (d : storage_dir_t) (f g : String)
    (h : ¬ g = f) :
    storage_dir_contains (storage_dir_remove_file d f) g
      = storage_dir_contains d g := by
  unfold storage_dir_contains storage_dir_remove_file
  rcases d with ⟨files⟩
  dsimp only
  induction files with
  | nil => rfl
  | cons x t ih =>
      by_cases hx : x.1 = f
      · rw [List.filter_cons_of_neg (by simpa using hx)]
        rw [List.any_cons, ih]
        have hxg : (x.1 = g) = False := by
          simp only [eq_iff_iff, iff_false]
          intro hcon
          exact h (hcon ▸ hx)
        simp [hxg]
      · rw [List.filter_cons_of_pos (by simpa using hx)]
        rw [List.any_cons, List.any_cons, ih]

theorem contains_foldl_remove_false (rl : List consensus_cache_entry_t)
    (f : String) :
    ∀ d : storage_dir_t, storage_dir_contains d f = false →
      storage_dir_contains
        (rl.foldl (fun d e => storage_dir_remove_file d e.fname) d) f
        = false := by
  induction rl with
  | nil => intro d h; exact h
  | cons x t ih =>
      intro d h
      rw [List.foldl_cons]
      apply ih
      by_cases hx : f = x.fname
      · rw [hx]
        exact contains_remove_self d x.fname
      · rw [contains_remove_other d x.fname f hx]
        exact h

theorem contains_foldl_remove_of_mem (rl : List consensus_cache_entry_t)
    (f : String) :
    ∀ d : storage_dir_t, (∃ x ∈ rl, x.fname = f) →
      storage_dir_contains
        (rl.foldl (fun d e => storage_dir_remove_file d e.fname) d) f
        = false := by
  induction rl with
  | nil => intro d h; rcases h with ⟨x, hx, _⟩; simp at hx
  | cons y t ih =>
      intro d h
      rcases h with ⟨x, hx, hxf⟩
      rw [List.foldl_cons]
      rcases List.mem_cons.1 hx with rfl | hxt
      · apply contains_foldl_remove_false
        rw [← hxf]
        exact contains_remove_self d x.fname
      · exact ih _ ⟨x, hxt, hxf⟩

theorem contains_foldl_remove_of_forall (rl : List consensus_cache_entry_t)
    (f : String) :
    ∀ d : storage_dir_t, (∀ x ∈ rl, ¬ x.fname = f) →
      storage_dir_contains
        (rl.foldl (fun d e => storage_dir_remove_file d e.fname) d) f
        = storage_dir_contains d f := by
  induction rl with
  | nil => intro d _; rfl
  | cons y t ih =>
      intro d h
      rw [List.foldl_cons]
      rw [ih _ (fun x hx => h x (List.mem_cons_of_mem y hx))]
      apply contains_remove_other
      intro hcon
      exact h y (List.mem_cons_self y t) (hcon ▸ rfl)

theorem delete_pending_dir_eq (c : consensus_cache_t)
    (l : List consensus_cache_entry_t) (force : Bool)
    (hc : c.entries = some l) :
    (consensus_cache_delete_pending c force).dir
      = (l.filter (fun e => delete_pending_removes force e)).foldl
          (fun d e => storage_dir_remove_file d e.fname) c.dir := by
  unfold consensus_cache_delete_pending
  rw [hc]
  rfl

theorem delete_pending_entries_eq (c : consensus_cache_t)
    (l : List consensus_cache_entry_t) (force : Bool)
    (hc : c.entries = some l) :
    (consensus_cache_delete_pending c force).entries
      = some (l.filter (fun e => ¬ delete_pending_removes force e = true)) := by
  unfold consensus_cache_delete_pending
  rw [hc]
  rfl

theorem delete_pending_file_removed (c : consensus_cache_t)
    (l : List consensus_cache_entry_t) (e : consensus_cache_entry_t)
    (force : Bool) (hc : c.entries = some l) (he : e ∈ l)
    (hrm : delete_pending_removes force e = true) :
    storage_dir_contains (consensus_cache_delete_pending c force).dir
      e.fname = false := by
  rw [delete_pending_dir_eq c l force hc]
  exact contains_foldl_remove_of_mem _ _ _
    ⟨e, List.mem_filter.2 ⟨he, hrm⟩, rfl⟩

theorem delete_pending_file_kept (c : consensus_cache_t)
    (l : List consensus_cache_entry_t) (e : consensus_cache_entry_t)
    (force : Bool) (hc : c.entries = some l) (_ : e ∈ l)
    (hU : ∀ x ∈ l, x.fname = e.fname → x = e)
    (hnr : delete_pending_removes force e = false) :
    storage_dir_contains (consensus_cache_delete_pending c force).dir
      e.fname = storage_dir_contains c.dir e.fname := by
  rw [delete_pending_dir_eq c l force hc]
  apply contains_foldl_remove_of_forall
  intro x hx hcon
  have hxl := List.mem_of_mem_filter hx
  have hxr := (List.mem_filter.1 hx).2
  have hxe : x = e := hU x hxl hcon
  rw [hxe] at hxr
  rw [hnr] at hxr
  exact Bool.false_ne_true hxr

/-- C2: for an entry marked for removal whose owning back-reference is
present, in a collection with unique filenames: a non-forced
`delete_pending` neither removes an externally referenced entry
(refcnt > 1) from the collection nor deletes its backend file; once the
refcount is exactly 1 a non-forced sweep removes it from both the
collection and the backend; a forced sweep removes every marked entry with
positive refcount from both, regardless of outstanding references. -/
theorem C2_delete_pending_semantics :
    ∀ (c : consensus_cache_t) (l : List consensus_cache_entry_t)
      (e : consensus_cache_entry_t),
      c.entries = some l → e ∈ l →
      e.can_remove = true → e.in_cache = true →
      (∀ x ∈ l, x.fname = e.fname → x = e) →
      (1 < e.refcnt →
        e ∈ (consensus_cache_delete_pending c false).entries.getD []
        ∧ storage_dir_contains (consensus_cache_delete_pending c false).dir
            e.fname = storage_dir_contains c.dir e.fname)
      ∧ (e.refcnt = 1 →
        e ∉ (consensus_cache_delete_pending c false).entries.getD []
        ∧ storage_dir_contains (consensus_cache_delete_pending c false).dir
            e.fname = false)
      ∧ (0 < e.refcnt →
        e ∉ (consensus_cache_delete_pending c true).entries.getD []
        ∧ storage_dir_contains (consensus_cache_delete_pending c true).dir
            e.fname = false) := by
  intro c l e hc he hcr hic hU
  refine ⟨?_, ?_, ?_⟩
  · intro hgt
    have hnr : delete_pending_removes false e = false := by
      unfold delete_pending_removes
      simp only [Bool.false_or]
      have : decide (e.refcnt ≤ 1) = false := by
        simp only [decide_eq_false_iff_not]
        omega
      rw [this]
      simp
    constructor
    · rw [delete_pending_entries_eq c l false hc]
      rw [Option.getD_some]
      exact List.mem_filter.2 ⟨he, by rw [hnr]; simp⟩
    · exact delete_pending_file_kept c l e false hc he hU hnr
  · intro h1
    have hrm : delete_pending_removes false e = true := by
      unfold delete_pending_removes
      rw [hcr, hic, h1]
      simp
    constructor
    · rw [delete_pending_entries_eq c l false hc]
      rw [Option.getD_some]
      intro hmem
      have := (List.mem_filter.1 hmem).2
      rw [hrm] at this
      simp at this
    · exact delete_pending_file_removed c l e false hc he hrm
  · intro h1
    have hrm : delete_pending_removes true e = true := by
      unfold delete_pending_removes
      rw [hcr]
      simp only [Bool.true_or, Bool.true_and]
      simp [h1]
    constructor
    · rw [delete_pending_entries_eq c l true hc]
      rw [Option.getD_some]
      intro hmem
      have := (List.mem_filter.1 hmem).2
      rw [hrm] at this
      simp at this
    · exact delete_pending_file_removed c l e true hc he hrm

/-- Witness for C2: a marked entry with an external reference survives a
non-forced sweep; a marked cache-only entry is deleted; a forced sweep
deletes a marked busy entry. -/
theorem C2_witness :
    ((1 : Int) < 2 →
      (⟨true, 2, true, false, "f1", [], true, TIME_MAX, none⟩
          : consensus_cache_entry_t)
        ∈ (consensus_cache_delete_pending
            ⟨⟨[("f1", [], [1])]⟩,
             some [⟨true, 2, true, false, "f1", [], true, TIME_MAX, none⟩]⟩
            false).entries.getD []
      ∧ storage_dir_contains (consensus_cache_delete_pending
            ⟨⟨[("f1", [], [1])]⟩,
             some [⟨true, 2, true, false, "f1", [], true, TIME_MAX, none⟩]⟩
            false).dir "f1"
          = storage_dir_contains ⟨[("f1", [], [1])]⟩ "f1")
    ∧ ((⟨true, 2, true, false, "f1", [], true, TIME_MAX, none⟩
          : consensus_cache_entry_t).refcnt = 1 →
      (⟨true, 2, true, false, "f1", [], true, TIME_MAX, none⟩
          : consensus_cache_entry_t)
        ∉ (consensus_cache_delete_pending
            ⟨⟨[("f1", [], [1])]⟩,
             some [⟨true, 2, true, false, "f1", [], true, TIME_MAX, none⟩]⟩
            false).entries.getD []
      ∧ storage_dir_contains (consensus_cache_delete_pending
            ⟨⟨[("f1", [], [1])]⟩,
             some [⟨true, 2, true, false, "f1", [], true, TIME_MAX, none⟩]⟩
            false).dir "f1" = false)
    ∧ ((0 : Int) < 2 →
      (⟨true, 2, true, false, "f1", [], true, TIME_MAX, none⟩
          : consensus_cache_entry_t)
        ∉ (consensus_cache_delete_pending
            ⟨⟨[("f1", [], [1])]⟩,
             some [⟨true, 2, true, false, "f1", [], true, TIME_MAX, none⟩]⟩
            true).entries.getD []
      ∧ storage_dir_contains (consensus_cache_delete_pending
            ⟨⟨[("f1", [], [1])]⟩,
             some [⟨true, 2, true, false, "f1", [], true, TIME_MAX, none⟩]⟩
            true).dir "f1" = false) :=
  C2_delete_pending_semantics
    ⟨⟨[("f1", [], [1])]⟩,
     some [⟨true, 2, true, false, "f1", [], true, TIME_MAX, none⟩]⟩
    [⟨true, 2, true, false, "f1", [], true, TIME_MAX, none⟩]
    ⟨true, 2, true, false, "f1", [], true, TIME_MAX, none⟩
    rfl (by decide) rfl rfl (by decide)

/-- C1 as stated is false: `consensus_cache_clear` (used by close and by the
rescan) invokes the deletion sweep with force = 0, not force = 1, so a
removal-marked entry that is still externally referenced (refcnt = 2 here)
keeps its backend file across `consensus_cache_free`. -/
theorem C1_counterexample :
    ¬ (∀ (c : consensus_cache_t) (e : consensus_cache_entry_t),
        e ∈ c.entries.getD [] → e.can_remove = true → 0 < e.refcnt →
        storage_dir_contains (consensus_cache_free c) e.fname = false) := by
  intro hclaim
  have h := hclaim
    ⟨⟨[("f1", [], [1])]⟩,
     some [⟨true, 2, true, false, "f1", [], true, TIME_MAX, none⟩]⟩
    ⟨true, 2, true, false, "f1", [], true, TIME_MAX, none⟩
    (by decide) rfl (by decide)
  exact absurd h (by decide)

/-- C1 amended: close (`consensus_cache_free`) and the clear at the start of
a rescan run the deletion sweep WITHOUT force (force = 0): the backend left
behind is exactly that of the non-forced sweep, so a removal-marked entry
whose only reference is the cache's (refcnt = 1, back-reference present) has
its backend file deleted, while a removal-marked entry with refcnt > 1
(externally referenced) keeps its backend file; the cache's own references
are then released entry by entry after detaching. -/
theorem C1_close_clear_nonforced :
    ∀ (c : consensus_cache_t) (l : List consensus_cache_entry_t)
      (e : consensus_cache_entry_t),
      c.entries = some l → e ∈ l →
      e.can_remove = true → e.in_cache = true →
      (∀ x ∈ l, x.fname = e.fname → x = e) →
      consensus_cache_free c = (consensus_cache_delete_pending c false).dir
      ∧ (consensus_cache_rescan c).dir
          = (consensus_cache_delete_pending c false).dir
      ∧ (e.refcnt = 1 →
          storage_dir_contains (consensus_cache_free c) e.fname = false)
      ∧ (1 < e.refcnt →
          storage_dir_contains (consensus_cache_free c) e.fname
            = storage_dir_contains c.dir e.fname) := by
  intro c l e hc he hcr hic hU
  have hfree : consensus_cache_free c
      = (consensus_cache_delete_pending c false).dir := by
    unfold consensus_cache_free consensus_cache_clear
    rw [hc]
    rfl
  refine ⟨hfree, ?_, ?_, ?_⟩
  · unfold consensus_cache_rescan consensus_cache_clear
    rw [hc]
    rfl
  · intro h1
    rw [hfree]
    apply delete_pending_file_removed c l e false hc he
    unfold delete_pending_removes
    rw [hcr, hic, h1]
    simp
  · intro h1
    rw [hfree]
    apply delete_pending_file_kept c l e false hc he hU
    unfold delete_pending_removes
    simp only [Bool.false_or]
    have hd : decide (e.refcnt ≤ 1) = false := by
      simp only [decide_eq_false_iff_not]
      omega
    rw [hd]
    simp

/-- Witness for C1 (amended): tearing down a cache holding one marked,
externally referenced entry (refcnt 3) leaves its file on disk. -/
theorem C1_witness :
    (consensus_cache_free
        ⟨⟨[("g1", [], [2])]⟩,
         some [⟨true, 3, true, false, "g1", [], true, TIME_MAX, none⟩]⟩
      = (consensus_cache_delete_pending
          ⟨⟨[("g1", [], [2])]⟩,
           some [⟨true, 3, true, false, "g1", [], true, TIME_MAX, none⟩]⟩
          false).dir)
    ∧ ((consensus_cache_rescan
          ⟨⟨[("g1", [], [2])]⟩,
           some [⟨true, 3, true, false, "g1", [], true, TIME_MAX, none⟩]⟩).dir
        = (consensus_cache_delete_pending
            ⟨⟨[("g1", [], [2])]⟩,
             some [⟨true, 3, true, false, "g1", [], true, TIME_MAX, none⟩]⟩
            false).dir)
    ∧ ((⟨true, 3, true, false, "g1", [], true, TIME_MAX, none⟩
          : consensus_cache_entry_t).refcnt = 1 →
        storage_dir_contains (consensus_cache_free
            ⟨⟨[("g1", [], [2])]⟩,
             some [⟨true, 3, true, false, "g1", [], true, TIME_MAX,
                    none⟩]⟩) "g1" = false)
    ∧ ((1 : Int) < 3 →
        storage_dir_contains (consensus_cache_free
            ⟨⟨[("g1", [], [2])]⟩,
             some [⟨true, 3, true, false, "g1", [], true, TIME_MAX,
                    none⟩]⟩) "g1"
          = storage_dir_contains ⟨[("g1", [], [2])]⟩ "g1") :=
  C1_close_clear_nonforced
    ⟨⟨[("g1", [], [2])]⟩,
     some [⟨true, 3, true, false, "g1", [], true, TIME_MAX, none⟩]⟩
    [⟨true, 3, true, false, "g1", [], true, TIME_MAX, none⟩]
    ⟨true, 3, true, false, "g1", [], true, TIME_MAX, none⟩
    rfl (by decide) rfl rfl (by decide)

end Conscache
